import Mathlib

/-! Verification of the CGM glycemic-metric library (cgm_gluc.py, utils.py)
against its natural-language specification.

Modelling conventions for the shallow embedding:
* A Python float is modelled as `Option ℝ`: `none` stands for NaN.
  Numpy comparisons involving NaN are false, and NaN-aware aggregations
  (np.nanmean, np.nanstd, pandas max/groupby-max) skip NaN entries.
* A glucose series (numpy array / pandas Series of floats) is
  `List (Option ℝ)`.
* A Python function that can raise an exception returns `Except String _`
  (the string names the exception class); a function that always returns
  a float, possibly NaN, returns `Option ℝ`.
* A pandas data frame is a structure of columns; assigning a column in
  place is modelled by explicit state passing: the function returns the
  post-call state of the frame together with its return value.
-/

/-- A CGM series: a list of float readings, `none` standing for NaN. -/
abbrev Series := List (Option ℝ)

/-- The non-NaN entries of a series, in order. -/
def validVals (x : Series) : List ℝ := x.filterMap id

/-- np.nanmean: mean of the non-NaN entries; NaN when there are none
(numpy emits a RuntimeWarning and returns NaN, it does not raise). -/
noncomputable def nanmean (x : Series) : Option ℝ :=
  if (validVals x).length = 0 then none
  else some ((validVals x).sum / (validVals x).length)

/-- np.nanstd (population standard deviation, ddof = 0): square root of
the mean squared deviation of the non-NaN entries; NaN when there are none. -/
noncomputable def nanstd (x : Series) : Option ℝ :=
  if (validVals x).length = 0 then none
  else
    some (Real.sqrt
      (((validVals x).map
          (fun a => (a - (validVals x).sum / (validVals x).length) ^ 2)).sum
        / (validVals x).length))

/-- Float subtraction: NaN if either operand is NaN. -/
def optSub : Option ℝ → Option ℝ → Option ℝ
  | some a, some b => some (a - b)
  | _, _ => none

/-- Float addition: NaN if either operand is NaN. -/
def optAdd : Option ℝ → Option ℝ → Option ℝ
  | some a, some b => some (a + b)
  | _, _ => none

/-- np.clip(v, lo, hi) for non-NaN arguments. -/
noncomputable def npClip (v lo hi : ℝ) : ℝ := min hi (max v lo)

/-- Numpy float comparison a <= b: false when either side is NaN. -/
noncomputable def pyLeB (a b : Option ℝ) : Bool :=
  match a, b with
  | some a, some b => decide (a ≤ b)
  | _, _ => false

/-- Numpy float comparison a < b: false when either side is NaN. -/
noncomputable def pyLtB (a b : Option ℝ) : Bool :=
  match a, b with
  | some a, some b => decide (a < b)
  | _, _ => false

/-- len(x[(x <= up) & (x >= dw)]): number of readings inside the bounds,
both bounds inclusive; NaN readings (and NaN bounds) never match. -/
noncomputable def inCnt (dw up : Option ℝ) : Series → ℕ
  | [] => 0
  | e :: r => (if pyLeB e up && pyLeB dw e then 1 else 0) + inCnt dw up r

/-- len(x[x < dw]): number of readings strictly below the lower bound. -/
noncomputable def belowCnt (dw : Option ℝ) : Series → ℕ
  | [] => 0
  | e :: r => (if pyLtB e dw then 1 else 0) + belowCnt dw r

/-- len(x[x > up]): number of readings strictly above the upper bound. -/
noncomputable def aboveCnt (up : Option ℝ) : Series → ℕ
  | [] => 0
  | e :: r => (if pyLtB up e then 1 else 0) + aboveCnt up r

/-- The pair (up, dw) of effective bounds used by TR_min and TR_percent:
the user range (range[1], range[0]) in fixed mode (TIR = True), and
(nanmean + sd*nanstd, nanmean - sd*nanstd) in statistical mode.  With an
all-NaN series the statistical bounds are NaN, modelled as `none`. -/
noncomputable def TR_bounds (x : Series) (sd : ℝ) (TIRflag : Bool)
    (r : ℝ × ℝ) : Option ℝ × Option ℝ :=
  if TIRflag then (some r.2, some r.1)
  else
    match nanmean x, nanstd x with
    | some m, some s => (some (m + sd * s), some (m - sd * s))
    | _, _ => (none, none)

/-- TR_min from cgm_gluc.py: the counts (TIR, TBR, TAR, TAR + TBR) of
readings in range, below range, above range, and out of range.  The
sampling-rate parameter sr is accepted but unused, as in the source. -/
noncomputable def TR_min (x : Series) (sd sr : ℝ) (TIRflag : Bool)
    (r : ℝ × ℝ) : ℕ × ℕ × ℕ × ℕ :=
  (inCnt (TR_bounds x sd TIRflag r).2 (TR_bounds x sd TIRflag r).1 x,
   belowCnt (TR_bounds x sd TIRflag r).2 x,
   aboveCnt (TR_bounds x sd TIRflag r).1 x,
   aboveCnt (TR_bounds x sd TIRflag r).1 x
     + belowCnt (TR_bounds x sd TIRflag r).2 x)

/-- TR_percent from cgm_gluc.py: the same counts each divided by len(x).
On the empty series the Python int division 0/0 raises ZeroDivisionError. -/
noncomputable def TR_percent (x : Series) (sd sr : ℝ) (TIRflag : Bool)
    (r : ℝ × ℝ) : Except String (ℝ × ℝ × ℝ × ℝ) :=
  if x.length = 0 then Except.error "ZeroDivisionError"
  else
    Except.ok
      ((inCnt (TR_bounds x sd TIRflag r).2 (TR_bounds x sd TIRflag r).1 x : ℝ)
          / x.length,
       (belowCnt (TR_bounds x sd TIRflag r).2 x : ℝ) / x.length,
       (aboveCnt (TR_bounds x sd TIRflag r).1 x : ℝ) / x.length,
       (aboveCnt (TR_bounds x sd TIRflag r).1 x : ℝ) / x.length
         + (belowCnt (TR_bounds x sd TIRflag r).2 x : ℝ) / x.length)

/-- eA1c from cgm_gluc.py. -/
noncomputable def eA1c (x : Series) (mmol_L : Bool) : Option ℝ :=
  if mmol_L then (nanmean x).map (fun m => (m + 2.59) / 1.59)
  else (nanmean x).map (fun m => (m + 46.7) / 28.7)

/-- pandas Series.diff(): first entry NaN, then consecutive differences
x[i] - x[i-1], NaN whenever either operand is NaN.  Length is preserved. -/
def pandasDiff : Series → Series
  | [] => []
  | y :: ys => none :: List.zipWith optSub ys (y :: ys)

/-- CONGA from cgm_gluc.py: np.nanstd(x.diff()).  The hours parameter is
accepted but unused, as in the source. -/
noncomputable def CONGA (x : Series) (hours : ℝ) : Option ℝ :=
  nanstd (pandasDiff x)

/-- MODD from cgm_gluc.py: np.nanmean(np.abs(x.diff())). -/
noncomputable def MODD (x : Series) : Option ℝ :=
  nanmean ((pandasDiff x).map (Option.map (fun d => |d|)))

/-- GMI from cgm_gluc.py: 12.71 + 4.70587 * np.nanmean(x).  On an empty or
all-NaN series np.nanmean returns NaN (a warning, not an exception), so the
function returns NaN. -/
noncomputable def GMI (x : Series) : Option ℝ :=
  (nanmean x).map (fun m => 12.71 + 4.70587 * m)

/-- Jindex from cgm_gluc.py: 0.324 * (np.nanmean(x) + np.nanstd(x))^2,
NaN (not an exception) on an empty or all-NaN series. -/
noncomputable def Jindex (x : Series) : Option ℝ :=
  match nanmean x, nanstd x with
  | some m, some s => some (0.324 * (m + s) ^ 2)
  | _, _ => none

/-- SDRC from cgm_gluc.py: np.nanstd(np.abs(x.diff() / t)). -/
noncomputable def SDRC (x : Series) (t : ℝ) : Option ℝ :=
  nanstd ((pandasDiff x).map (Option.map (fun d => |d / t|)))

/-- SDRC as the claim words it, for comparison with the source: the
standard deviation of the rate-of-change sequence itself — consecutive
differences divided by t, with no absolute value applied. -/
noncomputable def SDRC_claim (x : Series) (t : ℝ) : Option ℝ :=
  nanstd ((pandasDiff x).map (Option.map (fun d => d / t)))

/-- The table handed to ADRR: columns glucose and Day, plus the rh and rl
columns that ADRR assigns (absent, i.e. `none`, before the call). -/
structure GTable where
  glucose : List (Option ℝ)
  day : List ℕ
  rh : Option (List (Option ℝ)) := none
  rl : Option (List (Option ℝ)) := none

/-- The unit-specific symmetrizing log-power transform applied by ADRR to
each glucose value: 1.794*(ln x ^ 1.026 - 1.861) for mmol/L and
1.509*(ln x ^ 1.084 - 5.381) for mg/dL (real-exponent power). -/
noncomputable def symRisk (mmol_L : Bool) (v : ℝ) : ℝ :=
  if mmol_L then 1.794 * ((Real.log v) ^ (1.026 : ℝ) - 1.861)
  else 1.509 * ((Real.log v) ^ (1.084 : ℝ) - 5.381)

/-- High risk component of a transformed reading: 10*(max(v,0))^2. -/
noncomputable def rhOf (v : ℝ) : ℝ := 10 * max v 0 ^ 2

/-- Low risk component of a transformed reading: 10*(min(v,0))^2. -/
noncomputable def rlOf (v : ℝ) : ℝ := 10 * min v 0 ^ 2

/-- pandas max over a list of floats, skipna: NaN entries are ignored,
NaN when no valid entry exists (an all-NaN group). -/
noncomputable def listNanMax (l : List (Option ℝ)) : Option ℝ :=
  match l.filterMap id with
  | [] => none
  | h :: t => some (t.foldl max h)

/-- df.groupby('Day')[col].max() evaluated at day d: the skipna maximum of
the column entries whose Day equals d. -/
noncomputable def groupMax (day : List ℕ) (col : List (Option ℝ)) (d : ℕ) :
    Option ℝ :=
  listNanMax (((day.zip col).filter (fun p => p.1 = d)).map Prod.snd)

/-- ADRR from cgm_gluc.py.  The source mutates the caller's frame: it
overwrites df['glucose'] with the symmetrized values and assigns the new
columns df['rh'] and df['rl']; the post-call frame is returned as the first
component.  The second component is the returned triple
(ADRR, HGRI, LBGI): the nanmean over the distinct days of
(per-day max rh + per-day max rl), the nanmean of the rh column, and the
nanmean of the rl column.  (pandas iterates groups in sorted-key order; the
mean is order-invariant, so distinct days are taken in first-occurrence
order here.) -/
noncomputable def ADRR (df : GTable) (mmol_L : Bool) :
    GTable × (Option ℝ × Option ℝ × Option ℝ) :=
  let g := df.glucose.map (Option.map (symRisk mmol_L))
  let rh := g.map (Option.map rhOf)
  let rl := g.map (Option.map rlOf)
  (⟨g, df.day, some rh, some rl⟩,
   (nanmean (df.day.dedup.map
       (fun d => optAdd (groupMax df.day rh d) (groupMax df.day rl d))),
    nanmean rh,
    nanmean rl))

/-- COGI from cgm_gluc.py.  Calls TR_percent in fixed-range mode with the
unit-appropriate range, so it raises ZeroDivisionError on an empty series;
on a nonempty all-NaN series np.nanstd is NaN and the result is NaN.  Note
the source multiplies the variability term by overall_weights[2] only in
the mg/dL branch. -/
noncomputable def COGI (x : Series) (r : (ℝ × ℝ) × (ℝ × ℝ))
    (w : ℝ × ℝ × ℝ) (mmol_L : Bool) : Except String (Option ℝ) :=
  match nanstd x, TR_percent x 1 5 true (if mmol_L then r.2 else r.1) with
  | _, Except.error e => Except.error e
  | none, Except.ok _ => Except.ok none
  | some SD, Except.ok t =>
    if mmol_L then
      Except.ok (some (t.1 * 100 * w.1
        + (1 - npClip (t.2.1 / 0.15) 0 1) * 100 * w.2.1
        + (100 - npClip ((SD - 1) / (6 - 1) * 100) 0 100)))
    else
      Except.ok (some (t.1 * 100 * w.1
        + (1 - npClip (t.2.1 / 0.15) 0 1) * 100 * w.2.1
        + (100 - npClip ((SD - 18) / (108 - 18) * 100) 0 100) * w.2.2))

/-- COGI as the specification writes it, for comparison with the source:
100*w0*TIR + 100*w1*(1 - clip(TBR/0.15,0,1))
+ w2*(100 - clip((SD-lo)/(hi-lo)*100,0,100)), the third weight applied in
both unit branches. -/
noncomputable def COGI_formula (tir tbr SD lo hi w0 w1 w2 : ℝ) : ℝ :=
  100 * w0 * tir + 100 * w1 * (1 - npClip (tbr / 0.15) 0 1)
    + w2 * (100 - npClip ((SD - lo) / (hi - lo) * 100) 0 100)

/-- mg_dL_to_mmol_L from utils.py. -/
noncomputable def mg_dL_to_mmol_L (x : ℝ) : ℝ := x * 0.0555

/-- mmol_L_to_mg_dL from utils.py. -/
noncomputable def mmol_L_to_mg_dL (x : ℝ) : ℝ := x * 18.0188

/-- A frame with a datetime column, for separate_day_time.  A timestamp is
a pair (calendar date, time of day); dt.date extracts the first component
and dt.time the second.  The glucose column stands for the other columns
of the caller's frame; Day and Time are `none` when absent. -/
structure TFrame where
  time : List (ℕ × ℕ)
  glucose : List (Option ℝ)
  day : Option (List ℕ) := none
  timeOfDay : Option (List ℕ) := none

/-- separate_day_time from utils.py: assigns df['Day'] = df['time'].dt.date
and df['Time'] = df['time'].dt.time in place and returns the same frame. -/
def separate_day_time (df : TFrame) : TFrame :=
  { df with
    day := some (df.time.map Prod.fst),
    timeOfDay := some (df.time.map Prod.snd) }

/-! Helper lemmas. -/

@[simp] lemma pyLeB_some_some (a b : ℝ) :
    pyLeB (some a) (some b) = decide (a ≤ b) := rfl

@[simp] lemma pyLtB_some_some (a b : ℝ) :
    pyLtB (some a) (some b) = decide (a < b) := rfl

@[simp] lemma pyLeB_none_left (b : Option ℝ) : pyLeB none b = false := by
  cases b <;> rfl

@[simp] lemma pyLeB_none_right (a : Option ℝ) : pyLeB a none = false := by
  cases a <;> rfl

@[simp] lemma pyLtB_none_left (b : Option ℝ) : pyLtB none b = false := by
  cases b <;> rfl

@[simp] lemma pyLtB_none_right (a : Option ℝ) : pyLtB a none = false := by
  cases a <;> rfl

/-- With both bounds real and ordered, the three membership tests classify
every non-NaN series entirely: the counts add up to the length. -/
lemma cnt_partition (d u : ℝ) (hdu : d ≤ u) :
    ∀ x : Series, (∀ e ∈ x, e ≠ none) →
      inCnt (some d) (some u) x + belowCnt (some d) x + aboveCnt (some u) x
        = x.length := by
  intro x
  induction x with
  | nil => intro _; simp [inCnt, belowCnt, aboveCnt]
  | cons e r ih =>
    intro h
    have he : e ≠ none := h e (by simp)
    have hr : ∀ a ∈ r, a ≠ none := fun a ha => h a (by simp [ha])
    obtain ⟨v, rfl⟩ := Option.ne_none_iff_exists.mp he
    have hrec := ih hr
    rcases lt_or_le v d with hv | hv
    · have h1 : ¬ d ≤ v := not_le.mpr hv
      have h2 : ¬ u < v := not_lt.mpr (le_trans (le_of_lt hv) hdu)
      simp only [inCnt, belowCnt, aboveCnt, pyLeB_some_some, pyLtB_some_some,
        List.length_cons]
      simp [h1, h2, hv]
      omega
    · rcases le_or_lt v u with hu | hu
      · have h3 : ¬ v < d := not_lt.mpr hv
        have h4 : ¬ u < v := not_lt.mpr hu
        simp only [inCnt, belowCnt, aboveCnt, pyLeB_some_some, pyLtB_some_some,
          List.length_cons]
        simp [hv, hu, h3, h4]
        omega
      · have h1 : ¬ v ≤ u := not_le.mpr hu
        have h2 : ¬ v < d := not_lt.mpr (le_trans hdu (le_of_lt hu))
        simp only [inCnt, belowCnt, aboveCnt, pyLeB_some_some, pyLtB_some_some,
          List.length_cons]
        simp [h1, h2, hu]
        omega

/-- A series without NaN entries has as many valid values as entries. -/
lemma validVals_length (x : Series) (hnn : ∀ e ∈ x, e ≠ none) :
    (validVals x).length = x.length := by
  induction x with
  | nil => rfl
  | cons e r ih =>
    have he : e ≠ none := hnn e (by simp)
    obtain ⟨v, rfl⟩ := Option.ne_none_iff_exists.mp he
    have hr : ∀ a ∈ r, a ≠ none := fun a ha => hnn a (by simp [ha])
    simp [validVals, List.filterMap_cons]
    simpa [validVals] using ih hr

/-- When the effective bounds are real and ordered and the series is
nonempty and NaN-free, the three TR_percent fractions sum to 1. -/
lemma TR_percent_ok_sum (x : Series) (sd sr : ℝ) (flag : Bool) (r : ℝ × ℝ)
    (u d : ℝ) (hb : TR_bounds x sd flag r = (some u, some d)) (hdu : d ≤ u)
    (hne : x ≠ []) (hnn : ∀ e ∈ x, e ≠ none) :
    ∃ t b a, TR_percent x sd sr flag r = Except.ok (t, b, a, a + b)
      ∧ t + b + a = 1 := by
  have hlen : x.length ≠ 0 := by
    simpa [List.length_eq_zero] using hne
  have hmain : TR_percent x sd sr flag r = Except.ok
      ((inCnt (some d) (some u) x : ℝ) / x.length,
       (belowCnt (some d) x : ℝ) / x.length,
       (aboveCnt (some u) x : ℝ) / x.length,
       (aboveCnt (some u) x : ℝ) / x.length
         + (belowCnt (some d) x : ℝ) / x.length) := by
    simp only [TR_percent, if_neg hlen, hb]
  refine ⟨_, _, _, hmain, ?_⟩
  have hc := cnt_partition d u hdu x hnn
  have hcR : ((inCnt (some d) (some u) x : ℝ) + (belowCnt (some d) x : ℝ)
      + (aboveCnt (some u) x : ℝ)) = (x.length : ℝ) := by
    exact_mod_cast congrArg (fun n : ℕ => (n : ℝ)) hc
  rw [div_add_div_same, div_add_div_same, hcR]
  exact div_self (by exact_mod_cast hlen)

/-- C1 (amended): for every nonempty series with no missing readings, the
in-range, below-range and above-range fractions returned by TR_percent sum
exactly to 1, both in fixed-range mode (with an ordered range) and in
statistically-derived-bounds mode (with a nonnegative sd multiplier). -/
theorem TR_percent_sum_eq_one (x : Series) (sd sr : ℝ) (r : ℝ × ℝ)
    (hne : x ≠ []) (hnn : ∀ e ∈ x, e ≠ none) (hr : r.1 ≤ r.2)
    (hsd : 0 ≤ sd) :
    (∃ t b a, TR_percent x sd sr true r = Except.ok (t, b, a, a + b)
      ∧ t + b + a = 1)
    ∧ (∃ t b a, TR_percent x sd sr false r = Except.ok (t, b, a, a + b)
      ∧ t + b + a = 1) := by
  have hvlen : (validVals x).length ≠ 0 := by
    rw [validVals_length x hnn]
    simpa [List.length_eq_zero] using hne
  constructor
  · exact TR_percent_ok_sum x sd sr true r r.2 r.1
      (by simp [TR_bounds]) hr hne hnn
  · have hm : nanmean x = some ((validVals x).sum / (validVals x).length) :=
      by rw [nanmean, if_neg hvlen]
    have hs : nanstd x = some (Real.sqrt
        (((validVals x).map (fun a =>
          (a - (validVals x).sum / (validVals x).length) ^ 2)).sum
          / (validVals x).length)) := by
      rw [nanstd, if_neg hvlen]
    have hb : TR_bounds x sd false r =
        (some ((validVals x).sum / (validVals x).length
          + sd * Real.sqrt (((validVals x).map (fun a =>
            (a - (validVals x).sum / (validVals x).length) ^ 2)).sum
            / (validVals x).length)),
         some ((validVals x).sum / (validVals x).length
          - sd * Real.sqrt (((validVals x).map (fun a =>
            (a - (validVals x).sum / (validVals x).length) ^ 2)).sum
            / (validVals x).length))) := by
      simp only [TR_bounds, hm, hs, Bool.false_eq_true, if_false]
    have hprod : 0 ≤ sd * Real.sqrt (((validVals x).map (fun a =>
        (a - (validVals x).sum / (validVals x).length) ^ 2)).sum
        / (validVals x).length) :=
      mul_nonneg hsd (Real.sqrt_nonneg _)
    exact TR_percent_ok_sum x sd sr false r _ _ hb (by linarith) hne hnn

/-- Witness for C1 at the concrete series [99, 101], sd = 1, sr = 5,
fixed range [70, 180]. -/
theorem TR_percent_sum_eq_one_witness :
    (([some (99:ℝ), some 101] : Series) ≠ [])
    ∧ (∀ e ∈ ([some (99:ℝ), some 101] : Series), e ≠ none)
    ∧ (((70:ℝ), (180:ℝ)).1 ≤ ((70:ℝ), (180:ℝ)).2)
    ∧ ((0:ℝ) ≤ 1)
    ∧ ((∃ t b a, TR_percent [some 99, some 101] 1 5 true (70, 180)
          = Except.ok (t, b, a, a + b) ∧ t + b + a = 1)
      ∧ (∃ t b a, TR_percent [some 99, some 101] 1 5 false (70, 180)
          = Except.ok (t, b, a, a + b) ∧ t + b + a = 1)) :=
  ⟨by simp, by simp, by norm_num, by norm_num,
    TR_percent_sum_eq_one [some 99, some 101] 1 5 (70, 180)
      (by simp) (by simp) (by norm_num) (by norm_num)⟩

/-- Counterexample to C1 as stated: with a missing (NaN) reading the NaN
is counted in the denominator but in none of the three numerators, so on
the series [100, NaN] with fixed range [70, 180] the three fractions are
(1/2, 0, 0), which sum to 1/2, not 1. -/
theorem TR_percent_nan_counterexample :
    TR_percent [some 100, none] 1 5 true (70, 180)
      = Except.ok (1 / 2, 0, 0, 0)
    ∧ ¬ ((1:ℝ) / 2 + 0 + 0 = 1) := by
  constructor
  · have hlen : ([some (100:ℝ), none] : Series).length ≠ 0 := by simp
    simp only [TR_percent, if_neg hlen]
    norm_num [TR_bounds, inCnt, belowCnt, aboveCnt]
  · norm_num

lemma inCnt_append (dw up : Option ℝ) (a b : Series) :
    inCnt dw up (a ++ b) = inCnt dw up a + inCnt dw up b := by
  induction a with
  | nil => simp [inCnt]
  | cons e r ih => simp [inCnt, ih]; omega

lemma belowCnt_append (dw : Option ℝ) (a b : Series) :
    belowCnt dw (a ++ b) = belowCnt dw a + belowCnt dw b := by
  induction a with
  | nil => simp [belowCnt]
  | cons e r ih => simp [belowCnt, ih]; omega

lemma aboveCnt_append (up : Option ℝ) (a b : Series) :
    aboveCnt up (a ++ b) = aboveCnt up a + aboveCnt up b := by
  induction a with
  | nil => simp [aboveCnt]
  | cons e r ih => simp [aboveCnt, ih]; omega

/-- C2 (confirmed): whatever the effective bounds (up, dw) in force —
fixed-range or statistically derived, as long as they are ordered — a
reading exactly equal to the upper or to the lower bound contributes 1 to
the in-range component of TR_min and of TR_percent and 0 to the
below-range (strict <) and above-range (strict >) components: removing it
from the series lowers only the in-range count. -/
theorem boundary_reading_in_range (a b : Series) (sd sr : ℝ) (mode : Bool)
    (r : ℝ × ℝ) (u d v : ℝ)
    (hb : TR_bounds (a ++ some v :: b) sd mode r = (some u, some d))
    (hdu : d ≤ u) (hv : v = u ∨ v = d) :
    TR_min (a ++ some v :: b) sd sr mode r =
      (inCnt (some d) (some u) (a ++ b) + 1,
       belowCnt (some d) (a ++ b),
       aboveCnt (some u) (a ++ b),
       aboveCnt (some u) (a ++ b) + belowCnt (some d) (a ++ b))
    ∧ TR_percent (a ++ some v :: b) sd sr mode r = Except.ok
      (((inCnt (some d) (some u) (a ++ b) : ℝ) + 1)
          / (a ++ some v :: b).length,
       (belowCnt (some d) (a ++ b) : ℝ) / (a ++ some v :: b).length,
       (aboveCnt (some u) (a ++ b) : ℝ) / (a ++ some v :: b).length,
       (aboveCnt (some u) (a ++ b) : ℝ) / (a ++ some v :: b).length
         + (belowCnt (some d) (a ++ b) : ℝ) / (a ++ some v :: b).length) := by
  have hvu : v ≤ u := by
    rcases hv with rfl | rfl
    · exact le_rfl
    · exact hdu
  have hdv : d ≤ v := by
    rcases hv with rfl | rfl
    · exact hdu
    · exact le_rfl
  have h3 : ¬ v < d := not_lt.mpr hdv
  have h4 : ¬ u < v := not_lt.mpr hvu
  have e1 : inCnt (some d) (some u) (a ++ some v :: b)
      = inCnt (some d) (some u) (a ++ b) + 1 := by
    simp [inCnt_append, inCnt, hvu, hdv]; omega
  have e2 : belowCnt (some d) (a ++ some v :: b)
      = belowCnt (some d) (a ++ b) := by
    simp [belowCnt_append, belowCnt, h3]
  have e3 : aboveCnt (some u) (a ++ some v :: b)
      = aboveCnt (some u) (a ++ b) := by
    simp [aboveCnt_append, aboveCnt, h4]
  have hlen : (a ++ some v :: b).length ≠ 0 := by simp
  constructor
  · simp only [TR_min, hb, e1, e2, e3]
  · simp only [TR_percent, if_neg hlen, hb, e1, e2, e3]
    push_cast
    rfl

/-- Witness for C2 at the series [70, 100] in fixed-range mode [70, 180]:
the reading 70 equals the lower bound. -/
theorem boundary_reading_in_range_witness :
    (TR_bounds ([] ++ some 70 :: [some 100]) 1 true (70, 180)
      = (some 180, some 70))
    ∧ ((70:ℝ) ≤ 180)
    ∧ ((70:ℝ) = 180 ∨ (70:ℝ) = 70)
    ∧ (TR_min ([] ++ some 70 :: [some 100]) 1 5 true (70, 180) =
        (inCnt (some 70) (some 180) ([] ++ [some 100]) + 1,
         belowCnt (some 70) ([] ++ [some 100]),
         aboveCnt (some 180) ([] ++ [some 100]),
         aboveCnt (some 180) ([] ++ [some 100])
           + belowCnt (some 70) ([] ++ [some 100]))
      ∧ TR_percent ([] ++ some 70 :: [some 100]) 1 5 true (70, 180)
          = Except.ok
        (((inCnt (some 70) (some 180) ([] ++ [some 100]) : ℝ) + 1)
            / ([] ++ some (70:ℝ) :: [some 100] : Series).length,
         (belowCnt (some 70) ([] ++ [some 100]) : ℝ)
            / ([] ++ some (70:ℝ) :: [some 100] : Series).length,
         (aboveCnt (some 180) ([] ++ [some 100]) : ℝ)
            / ([] ++ some (70:ℝ) :: [some 100] : Series).length,
         (aboveCnt (some 180) ([] ++ [some 100]) : ℝ)
            / ([] ++ some (70:ℝ) :: [some 100] : Series).length
           + (belowCnt (some 70) ([] ++ [some 100]) : ℝ)
            / ([] ++ some (70:ℝ) :: [some 100] : Series).length)) :=
  ⟨rfl, by norm_num, Or.inr rfl,
    boundary_reading_in_range [] [some 100] 1 5 true (70, 180) 180 70 70
      rfl (by norm_num) (Or.inr rfl)⟩

/-- C3 (amended): on the empty series TR_percent does fail — the Python
integer division by len(x) = 0 raises ZeroDivisionError — but GMI and
Jindex do not: np.nanmean and np.nanstd of an empty array return NaN with
a RuntimeWarning, so both return the NaN sentinel as a normal value. -/
theorem empty_series_behavior (sd sr : ℝ) (mode : Bool) (r : ℝ × ℝ) :
    TR_percent [] sd sr mode r = Except.error "ZeroDivisionError"
    ∧ GMI [] = none ∧ Jindex [] = none :=
  ⟨rfl, rfl, rfl⟩

/-- Counterexample to C3 as stated: GMI and Jindex on the empty series do
not fail with an "empty series" error condition; each returns the NaN
sentinel as an ordinary value (their embedding has no error outcome
because the source functions have no raising operation). -/
theorem empty_series_counterexample : GMI [] = none ∧ Jindex [] = none :=
  ⟨rfl, rfl⟩

/-- Adding an entry in front of a series cannot shrink its valid count. -/
lemma validVals_cons_length (y : Option ℝ) (l : Series) :
    (validVals l).length ≤ (validVals (y :: l)).length := by
  cases y <;> simp [validVals, List.filterMap_cons]

/-- With at most one non-NaN reading, every consecutive difference
produced by pandas diff is NaN. -/
lemma zipWith_optSub_none :
    ∀ (ys : Series) (y : Option ℝ), (validVals (y :: ys)).length ≤ 1 →
      ∀ e ∈ List.zipWith optSub ys (y :: ys), e = none := by
  intro ys
  induction ys with
  | nil => intro y _ e he; simp at he
  | cons z zs ih =>
    intro y h e he
    rw [List.zipWith_cons_cons] at he
    rcases List.mem_cons.mp he with rfl | hmem
    · cases y with
      | none => cases z <;> rfl
      | some a =>
        cases z with
        | none => rfl
        | some c =>
          exfalso
          have : (validVals (some a :: some c :: zs)).length
              = (validVals zs).length + 2 := by
            simp [validVals, List.filterMap_cons]
          omega
    · have hle : (validVals (z :: zs)).length ≤ 1 :=
        le_trans (validVals_cons_length y (z :: zs)) h
      exact ih z hle e hmem

/-- Every entry of pandas diff is NaN when fewer than 2 readings are
non-missing. -/
lemma pandasDiff_all_none (x : Series) (h : (validVals x).length ≤ 1) :
    ∀ e ∈ pandasDiff x, e = none := by
  cases x with
  | nil => intro e he; simp [pandasDiff] at he
  | cons y ys =>
    intro e he
    rw [pandasDiff] at he
    rcases List.mem_cons.mp he with rfl | hmem
    · rfl
    · exact zipWith_optSub_none ys y h e hmem

/-- C4 (amended): with fewer than 2 non-missing readings every consecutive
difference produced by .diff() is NaN, so CONGA, MODD and SDRC each return
the NaN sentinel (np.nanstd / np.nanmean over an all-NaN array) as an
ordinary value; none of them raises an error. -/
theorem diff_metrics_nan (x : Series) (hours t : ℝ)
    (h : (validVals x).length ≤ 1) :
    CONGA x hours = none ∧ MODD x = none ∧ SDRC x t = none := by
  have hall : ∀ e ∈ pandasDiff x, e = none := pandasDiff_all_none x h
  have hd : validVals (pandasDiff x) = [] := by
    rw [validVals, List.filterMap_eq_nil]
    intro a ha
    exact hall a ha
  have hmap : ∀ f : ℝ → ℝ,
      validVals ((pandasDiff x).map (Option.map f)) = [] := by
    intro f
    rw [validVals, List.filterMap_eq_nil]
    intro a ha
    obtain ⟨e, he, rfl⟩ := List.mem_map.mp ha
    rw [hall e he]
    rfl
  refine ⟨?_, ?_, ?_⟩
  · rw [CONGA, nanstd, if_pos]
    rw [hd]
    rfl
  · rw [ MODD, nanmean, if_pos]
    rw [hmap]
    rfl
  · rw [SDRC, nanstd, if_pos]
    rw [hmap]
    rfl

/-- Counterexample to C4 as stated: on the 1-element series [100] the
functions CONGA, MODD and SDRC do not fail with an "insufficient data"
error — each returns the NaN sentinel as an ordinary value (the source has
no raising operation in any of them). -/
theorem diff_metrics_one_elem_counterexample :
    CONGA [some 100] 1 = none ∧ MODD [some 100] = none
    ∧ SDRC [some 100] 5 = none :=
  ⟨rfl, rfl, rfl⟩

/-- Witness for C4 at the 1-element series [100]. -/
theorem diff_metrics_nan_witness :
    ((validVals [some (100:ℝ)]).length ≤ 1)
    ∧ (CONGA [some 100] 1 = none ∧ MODD [some 100] = none
      ∧ SDRC [some 100] 5 = none) :=
  ⟨by simp [validVals], diff_metrics_nan [some 100] 1 5 (by simp [validVals])⟩

/-- Counterexample to C5 as stated: ADRR does not leave the caller-owned
table unchanged.  On the table with glucose = [1] (a single mg/dL reading
on day 0) the post-call glucose column holds the transformed value
1.509*(ln 1 ^ 1.084 - 5.381) = -8.119929, not the original reading 1. -/
theorem ADRR_mutates_counterexample :
    (ADRR ⟨[some 1], [0], none, none⟩ false).1.glucose ≠ [some 1] := by
  have hval : symRisk false 1 = -8.119929 := by
    rw [symRisk]
    simp only [Bool.false_eq_true, if_false, Real.log_one]
    rw [Real.zero_rpow (by norm_num : (1.084:ℝ) ≠ 0)]
    norm_num
  intro hcontra
  have h1 : (ADRR ⟨[some 1], [0], none, none⟩ false).1.glucose
      = [some (symRisk false 1)] := rfl
  rw [h1, hval] at hcontra
  simp only [List.cons.injEq, Option.some.injEq, and_true] at hcontra
  norm_num at hcontra

/-- C5 (amended): ADRR mutates the table it is given: the Day column is
kept, the glucose column is overwritten with the symmetrized risk values,
and the derived rh and rl columns are assigned onto the caller's table
(present after the call, whatever they were before). -/
theorem ADRR_mutates_table (df : GTable) (mmol_L : Bool) :
    (ADRR df mmol_L).1.day = df.day
    ∧ (ADRR df mmol_L).1.glucose
        = df.glucose.map (Option.map (symRisk mmol_L))
    ∧ (ADRR df mmol_L).1.rh
        = some ((df.glucose.map (Option.map (symRisk mmol_L))).map
            (Option.map rhOf))
    ∧ (ADRR df mmol_L).1.rl
        = some ((df.glucose.map (Option.map (symRisk mmol_L))).map
            (Option.map rlOf)) :=
  ⟨rfl, rfl, rfl, rfl⟩

/-- Mapping twice over the float options is mapping the composite. -/
lemma map_optmap_comp (f g : ℝ → ℝ) (l : List (Option ℝ)) :
    (l.map (Option.map f)).map (Option.map g)
      = l.map (Option.map (fun v => g (f v))) := by
  rw [List.map_map]
  congr 1
  funext a
  cases a <;> rfl

/-- C6 (confirmed): the triple returned by ADRR is exactly (mean over the
calendar days of (per-day max rh + per-day max rl), mean of rh over all
readings, mean of rl over all readings), where for each reading the
unit-specific log-power transform v = symRisk is split into
rh = 10*(max(v,0))^2 and rl = 10*(min(v,0))^2; the second component is the
one the source labels HGRI (HBGI) and the third the one it labels LBGI. -/
theorem ADRR_risk_triple (df : GTable) (mmol_L : Bool) :
    (ADRR df mmol_L).2 =
      (nanmean (df.day.dedup.map (fun d =>
         optAdd
           (groupMax df.day
             (df.glucose.map (Option.map (fun v => rhOf (symRisk mmol_L v))))
             d)
           (groupMax df.day
             (df.glucose.map (Option.map (fun v => rlOf (symRisk mmol_L v))))
             d))),
       nanmean
         (df.glucose.map (Option.map (fun v => rhOf (symRisk mmol_L v)))),
       nanmean
         (df.glucose.map (Option.map (fun v => rlOf (symRisk mmol_L v))))) := by
  simp only [ADRR, map_optmap_comp]

/-- On the series [3.9, 3.9] every valid value equals the mean, so the
standard deviation is zero. -/
lemma nanstd_const39 : nanstd [some 3.9, some 3.9] = some 0 := by
  rw [nanstd]
  rw [if_neg (by simp [validVals])]
  have hv : validVals [some (3.9:ℝ), some 3.9] = [3.9, 3.9] := rfl
  rw [hv]
  simp only [List.map_cons, List.map_nil, List.sum_cons, List.sum_nil,
    List.length_cons, List.length_nil, Option.some.injEq]
  norm_num

/-- TR_percent on [3.9, 3.9] in fixed mode [3.9, 10] puts everything in
range. -/
lemma TR_percent_const39 :
    TR_percent [some 3.9, some 3.9] 1 5 true (3.9, 10)
      = Except.ok (1, 0, 0, 0) := by
  rw [TR_percent, if_neg (by simp)]
  norm_num [TR_bounds, inCnt, belowCnt, aboveCnt]

/-- When the standard deviation and the in-range fractions are known, the
mmol/L branch of COGI evaluates to the source expression with the third
weight absent. -/
lemma COGI_eval_mmol (x : Series) (r : (ℝ × ℝ) × (ℝ × ℝ)) (w : ℝ × ℝ × ℝ)
    (SD tir tbr t3 t4 : ℝ) (hs : nanstd x = some SD)
    (ht : TR_percent x 1 5 true r.2 = Except.ok (tir, tbr, t3, t4)) :
    COGI x r w true = Except.ok (some (tir * 100 * w.1
      + (1 - npClip (tbr / 0.15) 0 1) * 100 * w.2.1
      + (100 - npClip ((SD - 1) / (6 - 1) * 100) 0 100))) := by
  simp [COGI, hs, ht]

/-- C7: in the mmol/L branch the source omits the overall_weights[2]
multiplier on the variability term.  On the series [3.9, 3.9] mmol/L with
the default range and weights, TIR = 1, TBR = 0 and SD = 0, so the source
returns 50 + 35 + 100 = 185, while the specification formula (the third
weight 0.15 applied in both branches) gives 50 + 35 + 15 = 100. -/
theorem COGI_mmol_weight_divergence :
    COGI [some 3.9, some 3.9] ((70, 180), (3.9, 10)) (0.5, 0.35, 0.15) true
      = Except.ok (some 185)
    ∧ COGI_formula 1 0 0 1 6 0.5 0.35 0.15 = 100
    ∧ (185:ℝ) ≠ 100 := by
  refine ⟨?_, ?_, by norm_num⟩
  · have h := COGI_eval_mmol [some 3.9, some 3.9] ((70, 180), (3.9, 10))
      (0.5, 0.35, 0.15) 0 1 0 0 0 nanstd_const39 TR_percent_const39
    rw [h]
    norm_num [npClip]
  · rw [COGI_formula]
    norm_num [npClip]

/-- A three-entry series NaN, a, a has standard deviation zero. -/
lemma nanstd_pair_eq (a : ℝ) : nanstd [none, some a, some a] = some 0 := by
  rw [nanstd, if_neg (by simp [validVals])]
  have hv : validVals [none, some a, some a] = [a, a] := rfl
  rw [hv]
  simp only [List.map_cons, List.map_nil, List.sum_cons, List.sum_nil,
    List.length_cons, List.length_nil, Option.some.injEq]
  push_cast
  have h1 : a - (a + (a + 0)) / 2 = 0 := by ring
  rw [h1]
  norm_num

/-- A three-entry series NaN, a, -a with a nonnegative has standard
deviation a. -/
lemma nanstd_plusminus (a : ℝ) (ha : 0 ≤ a) :
    nanstd [none, some a, some (-a)] = some a := by
  rw [nanstd, if_neg (by simp [validVals])]
  have hv : validVals [none, some a, some (-a)] = [a, -a] := rfl
  rw [hv]
  simp only [List.map_cons, List.map_nil, List.sum_cons, List.sum_nil,
    List.length_cons, List.length_nil, Option.some.injEq]
  push_cast
  have h1 : a - (a + (-a + 0)) / 2 = a := by ring
  have h2 : -a - (a + (-a + 0)) / 2 = -a := by ring
  rw [h1, h2]
  have h3 : (a ^ 2 + ((-a) ^ 2 + 0)) / 2 = a ^ 2 := by ring
  rw [h3, Real.sqrt_sq ha]

/-- Counterexample to C8 as stated: on the series [0, 1, 0] with t = 5
the rate-of-change sequence is (0.2, -0.2), whose standard deviation is
0.2; the source takes absolute values first, getting (0.2, 0.2) with
standard deviation 0.  SDRC is the standard deviation of a transformed
(absolute-value) sequence, not of the rate sequence itself. -/
theorem SDRC_abs_counterexample :
    SDRC [some 0, some 1, some 0] 5 = some 0
    ∧ SDRC_claim [some 0, some 1, some 0] 5 = some (1 / 5)
    ∧ (0:ℝ) ≠ 1 / 5 := by
  refine ⟨?_, ?_, by norm_num⟩
  · rw [SDRC]
    have hd : (pandasDiff [some (0:ℝ), some 1, some 0]).map
        (Option.map (fun d => |d / 5|))
        = [none, some |((1:ℝ) - 0) / 5|, some |((0:ℝ) - 1) / 5|] := rfl
    rw [hd]
    rw [show |((0:ℝ) - 1) / 5| = |((1:ℝ) - 0) / 5| by
      rw [show ((0:ℝ) - 1) / 5 = -(((1:ℝ) - 0) / 5) from by ring, abs_neg]]
    rw [nanstd_pair_eq]
  · rw [SDRC_claim]
    have hd : (pandasDiff [some (0:ℝ), some 1, some 0]).map
        (Option.map (fun d => d / 5))
        = [none, some (((1:ℝ) - 0) / 5), some (((0:ℝ) - 1) / 5)] := rfl
    rw [hd]
    rw [show ([none, some (((1:ℝ) - 0) / 5), some (((0:ℝ) - 1) / 5)] : Series)
        = [none, some (1 / 5), some (-(1 / 5))] by norm_num]
    exact nanstd_plusminus (1 / 5) (by norm_num)

/-- C8 (amended): for positive t, SDRC equals the standard deviation of
the sequence of ABSOLUTE consecutive differences divided by t — the
source applies np.abs before taking the standard deviation, so the sign
of each rate of change is discarded. -/
theorem SDRC_eq_abs_rate_std (x : Series) (t : ℝ) (ht : 0 < t) :
    SDRC x t
      = nanstd ((pandasDiff x).map (Option.map (fun d => |d| / t))) := by
  rw [SDRC]
  congr 1
  congr 1
  funext o
  cases o with
  | none => rfl
  | some v => simp [abs_div, abs_of_pos ht]

/-- Witness for C8 at the series [0, 1, 0] with t = 5. -/
theorem SDRC_eq_abs_rate_std_witness :
    ((0:ℝ) < 5)
    ∧ SDRC [some 0, some 1, some 0] 5
      = nanstd ((pandasDiff [some 0, some 1, some 0]).map
          (Option.map (fun d => |d| / 5))) :=
  ⟨by norm_num, SDRC_eq_abs_rate_std [some 0, some 1, some 0] 5 (by norm_num)⟩

/-- C9 (amended): the round trip multiplies by 0.0555*18.0188 = 1.0000434
exactly, so for positive x it is close to x — within a relative error of
10^-4, coming from the rounded calibration constants — but never equal
to x, and the relative deviation 4.34e-5 is far above floating-point
rounding magnitude. -/
theorem roundtrip_conversion (x : ℝ) (hx : 0 < x) :
    mg_dL_to_mmol_L (mmol_L_to_mg_dL x) = 1.0000434 * x
    ∧ |mg_dL_to_mmol_L (mmol_L_to_mg_dL x) - x| ≤ 0.0001 * x
    ∧ mg_dL_to_mmol_L (mmol_L_to_mg_dL x) ≠ x := by
  have h1 : mg_dL_to_mmol_L (mmol_L_to_mg_dL x) = 1.0000434 * x := by
    rw [mg_dL_to_mmol_L, mmol_L_to_mg_dL]
    ring
  refine ⟨h1, ?_, ?_⟩
  · rw [h1]
    rw [show (1.0000434:ℝ) * x - x = 0.0000434 * x from by ring]
    rw [abs_of_nonneg (by positivity)]
    nlinarith [hx]
  · rw [h1]
    intro hcontra
    nlinarith [hx, hcontra]

/-- Witness for C9 at x = 100. -/
theorem roundtrip_conversion_witness :
    ((0:ℝ) < 100)
    ∧ (mg_dL_to_mmol_L (mmol_L_to_mg_dL 100) = 1.0000434 * 100
      ∧ |mg_dL_to_mmol_L (mmol_L_to_mg_dL 100) - 100| ≤ 0.0001 * 100
      ∧ mg_dL_to_mmol_L (mmol_L_to_mg_dL 100) ≠ 100) :=
  ⟨by norm_num, roundtrip_conversion 100 (by norm_num)⟩

/-- Counterexample to C9 as stated: the round trip at 100 returns
100.00434, off by 0.00434 — a relative error of 4.34e-5, orders of
magnitude larger than floating rounding (double rounding is ~1e-16
relative; with the customary rounding-level relative tolerance 1e-9 the
approximate-equality test fails). -/
theorem roundtrip_counterexample :
    mg_dL_to_mmol_L (mmol_L_to_mg_dL 100) = 100.00434
    ∧ ¬ (|mg_dL_to_mmol_L (mmol_L_to_mg_dL 100) - 100| ≤ 1e-9 * 100) := by
  constructor
  · rw [mg_dL_to_mmol_L, mmol_L_to_mg_dL]
    norm_num
  · rw [mg_dL_to_mmol_L, mmol_L_to_mg_dL]
    intro h
    rw [show (100:ℝ) * 18.0188 * 0.0555 - 100 = 0.00434 from by norm_num] at h
    rw [abs_of_nonneg (by norm_num : (0:ℝ) ≤ 0.00434)] at h
    norm_num at h

/-- C10 (confirmed): separate_day_time hands back the caller's frame with
exactly the Day and Time columns assigned (freshly set, overwriting any
previous values) to the calendar-date and time-of-day parts of the time
column; the time column itself and every other column are unchanged. -/
theorem separate_day_time_frame (df : TFrame) :
    (separate_day_time df).time = df.time
    ∧ (separate_day_time df).glucose = df.glucose
    ∧ (separate_day_time df).day = some (df.time.map Prod.fst)
    ∧ (separate_day_time df).timeOfDay = some (df.time.map Prod.snd) :=
  ⟨rfl, rfl, rfl, rfl⟩
